import Mathlib

/-!
# The `__extern` forwarding wrappers of `src/c/zarray.c`

The file `src/c/zarray.c` holds four C functions.  Three of them forward to the
dynamic-array functions of the wrapped detection library, the fourth prints the
first `width` bytes of an image and then forwards to the library's detector.

The embedding is a shallow one.  A C function becomes a Lean function from the
memory it starts in to a `Run`: the value it returns (`none` when undefined
behaviour was reached), the memory it leaves, and the ordered list of effects it
performed (texts handed to `printf`, calls into the library).  The library is
not part of the repository; the wrappers take it as a parameter `Library`, and a
model of its dynamic array that follows the specification is given separately.
-/

namespace Apriltag

/-! ## Data model -/

/-- A value of the C type `uint8_t`. -/
abbrev Byte := Fin 256

/-- An address.  Every C pointer of the wrappers is an address. -/
abbrev Ptr := Nat

/-- Modelled from the spec: the type `image_u8_t` of the wrapped library (its header
`apriltag/common/image_u8.h` is not under `src`): "a width × height byte buffer plus
stride metadata".  The field `buf` lists the bytes that can be read through the C
field `buf`, from offset 0 on. -/
structure image_u8_t where
  width : Int
  height : Int
  stride : Int
  buf : List Byte

/-- Modelled from the spec: the type `apriltag_detector_t` of the wrapped library (its
header `apriltag/apriltag.h` is not under `src`): an "opaque configured instance of
the tag-detection algorithm".  The wrappers never look inside. -/
structure apriltag_detector_t where
  config : List Nat

/-- Modelled from the spec: the type `zarray_t` of the wrapped library (its header
`apriltag/common/zarray.h` is not under `src`): "an ordered sequence of fixed-size
element records, length known at runtime".  A record is the list of its bytes. -/
structure zarray_t where
  elems : List (List Byte)

/-- The memory the wrappers and the library work on: what each address holds, by kind
of object.  `none` means that the address holds no live object of that kind. -/
structure Memory where
  images : Ptr → Option image_u8_t
  detectors : Ptr → Option apriltag_detector_t
  arrays : Ptr → Option zarray_t
  storage : Ptr → Option (List Byte)

/-- One effect of a wrapper that is visible from outside it: a text handed to `printf`,
or a call of one of the four library functions with the arguments of that call. -/
inductive Event where
  | printf (text : String)
  | zarray_size (za : Ptr)
  | zarray_get (za : Ptr) (idx : Int) (p : Ptr)
  | zarray_destroy (za : Ptr)
  | apriltag_detector_detect (det : Ptr) (img : Ptr)
  deriving DecidableEq, Repr

/-- The outcome of running a piece of C code: the value it yields (`none` when undefined
behaviour was reached or a library call did not return normally), the memory it
leaves, and the effects it performed, oldest first. -/
structure Run (α : Type) where
  result : Option α
  mem : Memory
  trace : List Event

/-- A piece of C code: a function from the memory it starts in to its outcome. -/
abbrev Prog (α : Type) := Memory → Run α

/-- The code that does nothing and yields `a`. -/
def Prog.ret {α : Type} (a : α) : Prog α :=
  fun m => ⟨some a, m, []⟩

/-- Sequencing `first; rest`: `rest` runs in the memory left by `first`, unless `first`
did not yield a value, and the effects of `first` come before those of `rest`. -/
def Prog.seq {α β : Type} (first : Prog α) (rest : α → Prog β) : Prog β :=
  fun m =>
    let r := first m
    match r.result with
    | none => ⟨none, r.mem, r.trace⟩
    | some a =>
      let r2 := rest a r.mem
      ⟨r2.result, r2.mem, r.trace ++ r2.trace⟩

/-- The wrapped library, as far as the wrappers use it.  Each function maps the memory
at the call to the returned value and the memory at the return, or to `none` when the
call does not return normally (a failed assertion, undefined behaviour). -/
structure Library where
  zarray_size : Ptr → Memory → Option (Int × Memory)
  zarray_get : Ptr → Int → Ptr → Memory → Option (Unit × Memory)
  zarray_destroy : Ptr → Memory → Option (Unit × Memory)
  apriltag_detector_detect : Ptr → Ptr → Memory → Option (Ptr × Memory)

/-- A call into the library: the event `ev` is recorded, the library function `f` runs on
the memory of the caller as it is, and its value and memory are handed back. -/
def call {α : Type} (ev : Event) (f : Memory → Option (α × Memory)) : Prog α :=
  fun m =>
    match f m with
    | some (a, m1) => ⟨some a, m1, [ev]⟩
    | none => ⟨none, m, [ev]⟩

/-- The C call `printf(text)` for a text without conversions: one write, no change of
memory. -/
def printf (text : String) : Prog Unit :=
  fun m => ⟨some (), m, [Event.printf text]⟩

/-- The text that `printf("%d ", v)` writes for an `int` argument `v`: the decimal
rendering of `v`, then one space. -/
def fmt_d (v : Int) : String :=
  toString v ++ " "

/-- The read `img->width`. -/
def load_width (img : Ptr) : Prog Int :=
  fun m =>
    match m.images img with
    | some im => ⟨some im.width, m, []⟩
    | none => ⟨none, m, []⟩

/-- The read `img->buf[i]`, promoted to `int` as an argument of `printf`.  Reading outside
the bytes of the buffer is undefined behaviour. -/
def load_buf (img : Ptr) (i : Int) : Prog Int :=
  fun m =>
    match m.images img with
    | some im =>
      if 0 ≤ i then
        match im.buf[i.toNat]? with
        | some b => ⟨some (b.val : Int), m, []⟩
        | none => ⟨none, m, []⟩
      else ⟨none, m, []⟩
    | none => ⟨none, m, []⟩

/-! ## The four functions of `src/c/zarray.c` -/

/-- `int zarray_size__extern(zarray_t* za) { return zarray_size(za); }` -/
def zarray_size__extern (L : Library) (za : Ptr) : Prog Int :=
  call (Event.zarray_size za) (L.zarray_size za)

/-- `void zarray_get__extern(const zarray_t* za, int idx, void *p) { zarray_get(za, idx, p); }` -/
def zarray_get__extern (L : Library) (za : Ptr) (idx : Int) (p : Ptr) : Prog Unit :=
  call (Event.zarray_get za idx p) (L.zarray_get za idx p)

/-- `void zarray_destroy__extern(zarray_t* za) { zarray_destroy(za); }` -/
def zarray_destroy__extern (L : Library) (za : Ptr) : Prog Unit :=
  call (Event.zarray_destroy za) (L.zarray_destroy za)

/-- The loop `for(int i=0; i<width; i++) { printf("%d ", img->buf[i]); }` from the value
`i` of its counter on.  The counter stays below `width`, so `i++` never overflows. -/
def detect_loop (img : Ptr) (width : Int) (i : Int) : Prog Unit :=
  if i < width then
    Prog.seq (load_buf img i) fun v =>
    Prog.seq (printf (fmt_d v)) fun _ =>
    detect_loop img width (i + 1)
  else
    Prog.ret ()
termination_by (width - i).toNat
decreasing_by omega

/-- The function `apriltag_detector_detect__extern(det, img)`: read the width, print the
header, print the first `width` bytes of the buffer, print a newline, then return what
the library's `apriltag_detector_detect(det, img)` returns. -/
def apriltag_detector_detect__extern (L : Library) (det : Ptr) (img : Ptr) : Prog Ptr :=
  Prog.seq (load_width img) fun width =>
  Prog.seq (printf "What C is seeing:\n") fun _ =>
  Prog.seq (detect_loop img width 0) fun _ =>
  Prog.seq (printf "\n") fun _ =>
  call (Event.apriltag_detector_detect det img) (L.apriltag_detector_detect det img)

/-- The texts handed to `printf` in a sequence of effects, in the order of the writes. -/
def written : List Event → List String
  | [] => []
  | Event.printf text :: rest => text :: written rest
  | _ :: rest => written rest

/-! ## Callers of the boundary -/

/-- One call that a caller makes across the boundary. -/
inductive BoundaryCall where
  | size (za : Ptr)
  | get (za : Ptr) (idx : Int) (p : Ptr)
  | destroy (za : Ptr)
  | detect (det : Ptr) (img : Ptr)
  deriving DecidableEq, Repr

/-- Running one call of a caller; the value the wrapper returns is dropped. -/
def BoundaryCall.run (L : Library) : BoundaryCall → Prog Unit
  | BoundaryCall.size za => Prog.seq ( zarray_size__extern L za) fun _ => Prog.ret ()
  | BoundaryCall.get za idx p => zarray_get__extern L za idx p
  | BoundaryCall.destroy za => zarray_destroy__extern L za
  | BoundaryCall.detect det img =>
    Prog.seq ( apriltag_detector_detect__extern L det img) fun _ => Prog.ret ()

/-- Running the calls of a caller one after the other. -/
def run_calls (L : Library) : List BoundaryCall → Prog Unit
  | [] => Prog.ret ()
  | c :: rest => Prog.seq (c.run L) fun _ => run_calls L rest

/-! ## The dynamic array of the wrapped library, after the specification -/

namespace Spec

/-- Modelled from the spec: the library function `zarray_size` (defined in
`apriltag/common/zarray.h`, not under `src`): it "returns the number of elements
currently in the array", the "input must be a valid, non-destroyed array handle;
behavior is undefined otherwise", and it has "no side effects". -/
def zarray_size (za : Ptr) (m : Memory) : Option (Int × Memory) :=
  match m.arrays za with
  | some a => some ((a.elems.length : Int), m)
  | none => none

/-- Modelled from the spec: the library function `zarray_get` (defined in
`apriltag/common/zarray.h`, not under `src`): it "copies the element at `index` into
caller-provided storage", under the constraints "`0 ≤ index < size(array)`" and
"`outBuffer` must be large enough for one element record"; outside them the behaviour
is undefined.  The copy overwrites the first bytes of the storage. -/
def zarray_get (za : Ptr) (idx : Int) (p : Ptr) (m : Memory) : Option (Unit × Memory) :=
  match m.arrays za, m.storage p with
  | some a, some out =>
    if 0 ≤ idx ∧ idx < (a.elems.length : Int) then
      match a.elems[idx.toNat]? with
      | some r =>
        if r.length ≤ out.length then
          some ((), ⟨m.images, m.detectors, m.arrays,
            Function.update m.storage p (some (r ++ out.drop r.length))⟩)
        else none
      | none => none
    else none
  | _, _ => none

/-- Modelled from the spec: the library function `zarray_destroy` (defined in
`apriltag/common/zarray.h`, not under `src`): it "releases all resources owned by the
array"; "calling it more than once is undefined behavior", and after it "no further
`size`/`get` calls against that handle are valid". -/
def zarray_destroy (za : Ptr) (m : Memory) : Option (Unit × Memory) :=
  match m.arrays za with
  | some _ => some ((), ⟨m.images, m.detectors, Function.update m.arrays za none, m.storage⟩)
  | none => none

/-- The library whose dynamic array is the one of the specification and whose detector
is the given function `detect`. -/
def library (detect : Ptr → Ptr → Memory → Option (Ptr × Memory)) : Library :=
  ⟨zarray_size, zarray_get, zarray_destroy, detect⟩

end Spec

/-! ## Concrete objects used to instantiate the theorems -/

/-- The 10×1 image with the bytes 1, 2, ..., 10. -/
def rowImage : image_u8_t :=
  ⟨10, 1, 10, [1, 2, 3, 4, 5, 6, 7, 8, 9, 10]⟩

/-- A 3×2 image with stride 4 whose first three bytes are those of `wideImage`. -/
def tallImage : image_u8_t :=
  ⟨3, 2, 4, [7, 8, 9, 0, 200, 201, 202, 0]⟩

/-- A 3×1 image whose three bytes are the first three of `tallImage`. -/
def wideImage : image_u8_t :=
  ⟨3, 1, 3, [7, 8, 9]⟩

/-- An array of two records of two bytes each. -/
def pairArray : zarray_t :=
  ⟨[[10, 11], [20, 21]]⟩

/-- A memory with `rowImage` at address 1, `tallImage` at 2, `wideImage` at 3, a detector
at 4, `pairArray` at 5 and four bytes of caller storage at 6. -/
def sampleMemory : Memory where
  images := fun p =>
    if p = 1 then some rowImage else if p = 2 then some tallImage
    else if p = 3 then some wideImage else none
  detectors := fun p => if p = 4 then some ⟨[]⟩ else none
  arrays := fun p => if p = 5 then some pairArray else none
  storage := fun p => if p = 6 then some [0, 0, 0, 0] else none

/-- A detector that finds nothing: it allocates an empty array at address 9. -/
def detectNothing (_det : Ptr) (_img : Ptr) (m : Memory) : Option (Ptr × Memory) :=
  some (9, ⟨m.images, m.detectors, Function.update m.arrays 9 (some ⟨[]⟩), m.storage⟩)

/-- The library of the specification with the detector `detectNothing`. -/
def sampleLibrary : Library :=
  Spec.library detectNothing

/-- A detector that finds nothing and allocates as a library does: the empty array goes to
the lowest address from 9 to 16 that holds no live array, and the call does not return
normally when all of them are taken. -/
def detectFresh (_det : Ptr) (_img : Ptr) (m : Memory) : Option (Ptr × Memory) :=
  match (List.range' 9 8).find? fun p => (m.arrays p).isNone with
  | some a =>
    some (a, ⟨m.images, m.detectors, Function.update m.arrays a (some ⟨[]⟩), m.storage⟩)
  | none => none

/-- The library of the specification with the detector `detectFresh`. -/
def freshLibrary : Library :=
  Spec.library detectFresh

/-! ## Lemmas on the embedding -/

theorem written_append (t1 t2 : List Event) : written (t1 ++ t2) = written t1 ++ written t2 := by
  induction t1 with
  | nil => rfl
  | cons e rest ih => cases e <;> simp [written, ih]

theorem written_map_printf (texts : List String) : written (texts.map Event.printf) = texts := by
  induction texts with
  | nil => rfl
  | cons text rest ih => simp [written, ih]

theorem fmt_d_byte (b : Byte) : fmt_d (b.val : Int) = toString b.val ++ " " := rfl

/-- What a forwarded call yields: the value and the memory of the library function run on
the memory of the caller, and the one event of the call. -/
theorem call_run {α : Type} (ev : Event) (f : Memory → Option (α × Memory)) (m : Memory) :
    call ev f m = ⟨(f m).map Prod.fst, ((f m).map Prod.snd).getD m, [ev]⟩ := by
  unfold call
  cases f m with
  | none => rfl
  | some am => rfl

/-- The loop from counter `i` on: it writes the bytes `i`, `i+1`, ... of the buffer that
lie below `width`, and it completes when all of them can be read. -/
theorem detect_loop_run (m : Memory) (img : Ptr) (im : image_u8_t)
    (him : m.images img = some im) (width : Int) :
    ∀ (n i : Nat), (width - (i : Int)).toNat = n →
      detect_loop img width i m =
        ⟨if width ≤ (im.buf.length : Int) ∨ width ≤ (i : Int) then some () else none, m,
          ((im.buf.take width.toNat).drop i).map fun b => Event.printf (fmt_d (b.val : Int))⟩ := by
  intro n
  induction n with
  | zero =>
    intro i hn
    have hge : width ≤ (i : Int) := by omega
    have hnil : (im.buf.take width.toNat).drop i = [] := by
      apply List.drop_eq_nil_of_le
      simp; omega
    unfold detect_loop
    rw [if_neg (by omega), hnil]
    simp [Prog.ret, hge]
  | succ n ih =>
    intro i hn
    have hlt : (i : Int) < width := by omega
    unfold detect_loop
    rw [if_pos hlt]
    by_cases hi : i < im.buf.length
    · have hget : im.buf[i]? = some im.buf[i] := List.getElem?_eq_getElem hi
      have hrec := ih (i + 1) (by omega)
      have hcons : (im.buf.take width.toNat).drop i
          = im.buf[i] :: (im.buf.take width.toNat).drop (i + 1) := by
        have hlen : i < (im.buf.take width.toNat).length := by simp; omega
        rw [List.drop_eq_getElem_cons hlen]
        simp
      have hcond : (width ≤ (im.buf.length : Int) ∨ width ≤ (i : Int) + 1)
          ↔ (width ≤ (im.buf.length : Int) ∨ width ≤ (i : Int)) := by omega
      simp only [Prog.seq, load_buf, him, printf, Int.toNat_ofNat, hget, Nat.cast_nonneg, if_true]
      push_cast at hrec
      rw [hrec, hcons]
      simp [hcond]
    · have hget : im.buf[i]? = none := List.getElem?_eq_none (by omega)
      have hnil : (im.buf.take width.toNat).drop i = [] := by
        apply List.drop_eq_nil_of_le
        simp; omega
      have hc : ¬ (width ≤ (im.buf.length : Int) ∨ width ≤ (i : Int)) := by omega
      simp only [Prog.seq, load_buf, him, Int.toNat_ofNat, hget, Nat.cast_nonneg, if_true, hnil]
      simp [hc]

/-- The whole run of the detection wrapper on an image whose first `width` bytes can be
read. -/
theorem detect_extern_run (L : Library) (det img : Ptr) (m : Memory) (im : image_u8_t)
    (him : m.images img = some im) (hread : im.width ≤ (im.buf.length : Int)) :
    apriltag_detector_detect__extern L det img m =
      ⟨(L.apriltag_detector_detect det img m).map Prod.fst,
        ((L.apriltag_detector_detect det img m).map Prod.snd).getD m,
        ("What C is seeing:\n"
            :: ((im.buf.take im.width.toNat).map fun b => toString b.val ++ " ") ++ ["\n"]).map
          Event.printf ++ [Event.apriltag_detector_detect det img]⟩ := by
  have hloop := detect_loop_run m img im him im.width _ 0 rfl
  simp only [Nat.cast_zero, List.drop_zero] at hloop
  unfold apriltag_detector_detect__extern
  simp only [Prog.seq, load_width, him, printf, hloop, hread, true_or, if_true, call_run]
  simp [fmt_d_byte, Function.comp_def]

/-- The run of the detection wrapper on an image whose buffer holds fewer than `width`
bytes: it stops at the first byte it cannot read, before the library is called. -/
theorem detect_extern_run_short (L : Library) (det img : Ptr) (m : Memory) (im : image_u8_t)
    (him : m.images img = some im) (hshort : (im.buf.length : Int) < im.width) :
    apriltag_detector_detect__extern L det img m =
      ⟨none, m, ("What C is seeing:\n"
        :: (im.buf.take im.width.toNat).map fun b => toString b.val ++ " ").map Event.printf⟩ := by
  have hloop := detect_loop_run m img im him im.width _ 0 rfl
  have hc : ¬ (im.width ≤ (im.buf.length : Int) ∨ im.width ≤ 0) := by omega
  simp only [Nat.cast_zero, List.drop_zero] at hloop
  unfold apriltag_detector_detect__extern
  simp only [Prog.seq, load_width, him, printf, hloop, hc, if_false]
  simp [fmt_d_byte, Function.comp_def]

theorem destroy_not_mem_map_printf (a : Ptr) (texts : List String) :
    Event.zarray_destroy a ∉ texts.map Event.printf := by
  intro h
  obtain ⟨text, _, htext⟩ := List.mem_map.1 h
  cases htext

/-- The detection wrapper never calls the library's `zarray_destroy`. -/
theorem detect_extern_trace_no_destroy (L : Library) (det img : Ptr) (m : Memory) (a : Ptr) :
    Event.zarray_destroy a ∉ ( apriltag_detector_detect__extern L det img m).trace := by
  cases him : m.images img with
  | none =>
    unfold apriltag_detector_detect__extern
    simp [Prog.seq, load_width, him]
  | some im =>
    by_cases h : im.width ≤ (im.buf.length : Int)
    · rw [detect_extern_run L det img m im him h]
      intro hmem
      rcases List.mem_append.1 hmem with h1 | h1
      · exact destroy_not_mem_map_printf a _ h1
      · simp at h1
    · rw [detect_extern_run_short L det img m im him (by omega)]
      exact destroy_not_mem_map_printf a _

/-- A call of a caller other than `destroy(a)` does not call the library's
`zarray_destroy` on `a`. -/
theorem boundary_call_no_destroy (L : Library) (c : BoundaryCall) (m : Memory) (a : Ptr)
    (hc : c ≠ BoundaryCall.destroy a) :
    Event.zarray_destroy a ∉ (c.run L m).trace := by
  cases c with
  | size za =>
    simp only [BoundaryCall.run, Prog.seq, Prog.ret, zarray_size__extern, call_run]
    split <;> simp
  | get za idx p => simp [BoundaryCall.run, zarray_get__extern, call_run]
  | destroy za =>
    have hne : a ≠ za := fun h => hc (by rw [h])
    simp [BoundaryCall.run, zarray_destroy__extern, call_run, hne]
  | detect det img =>
    have h := detect_extern_trace_no_destroy L det img m a
    simp only [BoundaryCall.run, Prog.seq, Prog.ret]
    split <;> simpa using h

/-- A sequence of calls without `destroy(a)` does not call the library's `zarray_destroy`
on `a`. -/
theorem run_calls_no_destroy (L : Library) (a : Ptr) :
    ∀ (calls : List BoundaryCall) (m : Memory), BoundaryCall.destroy a ∉ calls →
      Event.zarray_destroy a ∉ (run_calls L calls m).trace := by
  intro calls
  induction calls with
  | nil => intro m _; simp [run_calls, Prog.ret]
  | cons c rest ih =>
    intro m hnot
    have hc : c ≠ BoundaryCall.destroy a := fun h => hnot (by simp [h])
    have hrest : BoundaryCall.destroy a ∉ rest := fun h => hnot (by simp [h])
    have h1 := boundary_call_no_destroy L c m a hc
    simp only [run_calls, Prog.seq]
    split
    · exact h1
    · simp only [List.mem_append, not_or]
      exact ⟨h1, ih _ hrest⟩

/-- With the array functions of the specification, a call of a caller other than
`destroy(a)` leaves a live array at `a` as it is, provided the detector leaves live
arrays at `a` alone. -/
theorem boundary_call_keeps_array (detect : Ptr → Ptr → Memory → Option (Ptr × Memory))
    (a : Ptr)
    (hframe : ∀ det img m0 r m1, m0.arrays a ≠ none → detect det img m0 = some (r, m1) →
      m1.arrays a = m0.arrays a)
    (c : BoundaryCall) (m : Memory) (hlive : m.arrays a ≠ none)
    (hc : c ≠ BoundaryCall.destroy a) :
    (c.run (Spec.library detect) m).mem.arrays a = m.arrays a := by
  cases c with
  | size za =>
    simp only [BoundaryCall.run, Prog.seq, Prog.ret, zarray_size__extern, call_run,
      Spec.library, Spec.zarray_size]
    cases m.arrays za <;> rfl
  | get za idx p =>
    simp only [BoundaryCall.run, zarray_get__extern, call_run, Spec.library, Spec.zarray_get]
    split
    · split
      · split
        · split <;> rfl
        · rfl
      · rfl
    · rfl
  | destroy za =>
    have hne : a ≠ za := fun h => hc (by rw [h])
    simp only [BoundaryCall.run, zarray_destroy__extern, call_run, Spec.library,
      Spec.zarray_destroy]
    cases m.arrays za with
    | none => rfl
    | some arr => simp [Function.update_noteq hne]
  | detect det img =>
    have hmem : ( apriltag_detector_detect__extern (Spec.library detect) det img m).mem.arrays a
        = m.arrays a := by
      cases him : m.images img with
      | none =>
        unfold apriltag_detector_detect__extern
        simp [Prog.seq, load_width, him]
      | some im =>
        by_cases h : im.width ≤ (im.buf.length : Int)
        · rw [detect_extern_run _ det img m im him h]
          cases hd : detect det img m with
          | none => simp [Spec.library, hd]
          | some rm => simpa [Spec.library, hd] using hframe det img m rm.1 rm.2 hlive hd
        · rw [detect_extern_run_short _ det img m im him (by omega)]
    simp only [BoundaryCall.run, Prog.seq, Prog.ret]
    split <;> simpa using hmem

/-- With the array functions of the specification, a sequence of calls without
`destroy(a)` leaves a live array at `a` as it is, provided the detector leaves live
arrays at `a` alone. -/
theorem run_calls_keeps_array (detect : Ptr → Ptr → Memory → Option (Ptr × Memory))
    (a : Ptr)
    (hframe : ∀ det img m0 r m1, m0.arrays a ≠ none → detect det img m0 = some (r, m1) →
      m1.arrays a = m0.arrays a) :
    ∀ (calls : List BoundaryCall) (m : Memory), m.arrays a ≠ none →
      BoundaryCall.destroy a ∉ calls →
      (run_calls (Spec.library detect) calls m).mem.arrays a = m.arrays a := by
  intro calls
  induction calls with
  | nil => intro m _ _; rfl
  | cons c rest ih =>
    intro m hlive hnot
    have hc : c ≠ BoundaryCall.destroy a := fun h => hnot (by simp [h])
    have hrest : BoundaryCall.destroy a ∉ rest := fun h => hnot (by simp [h])
    have h1 := boundary_call_keeps_array detect a hframe c m hlive hc
    simp only [run_calls, Prog.seq]
    split
    · exact h1
    · exact (ih _ (by rw [h1]; exact hlive) hrest).trans h1

/-- The detector `detectFresh` allocates at an address that holds no live array, so it
leaves every live array as it is. -/
theorem detectFresh_frame (a : Ptr) (det img : Ptr) (m0 : Memory) (r : Ptr) (m1 : Memory)
    (hlive : m0.arrays a ≠ none) (hd : detectFresh det img m0 = some (r, m1)) :
    m1.arrays a = m0.arrays a := by
  unfold detectFresh at hd
  cases hfind : (List.range' 9 8).find? fun p => (m0.arrays p).isNone with
  | none => simp [hfind] at hd
  | some q =>
    have hfree : (m0.arrays q).isNone = true :=
      @List.find?_some _ (fun p => (m0.arrays p).isNone) q (List.range' 9 8) hfind
    have hne : a ≠ q := by
      intro h
      rw [h] at hlive
      exact hlive (Option.isNone_iff_eq_none.1 hfree)
    simp only [hfind, Option.some.injEq, Prod.mk.injEq] at hd
    rw [← hd.2]
    simp [Function.update_noteq hne]

/-! ## The detection wrapper -/

/-- Claim C1: for every library, detector and image whose first `width` bytes can be read,
the texts written by `apriltag_detector_detect__extern` are the header
"What C is seeing:", then for `i = 0 .. width-1` in increasing order the decimal rendering
of the byte `buf[i]` followed by one space, then a newline, and nothing else; exactly
`width` values are written (none when `width ≤ 0`) and the `i`-th one is `buf[i]`. -/
theorem detect_extern_writes_first_row (L : Library) (det img : Ptr) (m : Memory)
    (im : image_u8_t) (him : m.images img = some im)
    (hread : im.width ≤ (im.buf.length : Int)) :
    written ( apriltag_detector_detect__extern L det img m).trace =
        "What C is seeing:\n"
          :: ((im.buf.take im.width.toNat).map fun b => toString b.val ++ " ") ++ ["\n"]
      ∧ (im.buf.take im.width.toNat).length = im.width.toNat
      ∧ ∀ i : Nat, (i : Int) < im.width → (im.buf.take im.width.toNat)[i]? = im.buf[i]? := by
  refine ⟨?_, ?_, ?_⟩
  · rw [detect_extern_run L det img m im him hread, written_append, written_map_printf]
    simp [written]
  · rw [List.length_take]
    omega
  · intro i hi
    rw [List.getElem?_take]
    rw [if_pos (by omega)]

/-- The scenario of the specification for the theorem above: for the 10×1 image with the
bytes 1, ..., 10 the values written are 1 2 3 4 5 6 7 8 9 10, in this order. -/
theorem detect_extern_writes_first_row_witness :
    sampleMemory.images 1 = some rowImage
      ∧ rowImage.width ≤ (rowImage.buf.length : Int)
      ∧ written ( apriltag_detector_detect__extern sampleLibrary 4 1 sampleMemory).trace =
        ["What C is seeing:\n", "1 ", "2 ", "3 ", "4 ", "5 ", "6 ", "7 ", "8 ", "9 ", "10 ",
          "\n"] :=
  ⟨rfl, by decide,
    (detect_extern_writes_first_row sampleLibrary 4 1 sampleMemory rowImage rfl
      (by decide)).1.trans (by decide)⟩

/-- Claim C2: for every library, detector and image whose first `width` bytes can be read,
`apriltag_detector_detect__extern(det, img)` returns exactly what the library's
`apriltag_detector_detect` returns when it is run on the same `det` and `img` in the
memory the wrapper received, and it leaves the memory that this library call leaves: the
wrapper itself writes nothing to memory and the print does not change the result. -/
theorem detect_extern_returns_library_result (L : Library) (det img : Ptr) (m : Memory)
    (im : image_u8_t) (him : m.images img = some im)
    (hread : im.width ≤ (im.buf.length : Int)) :
    ( apriltag_detector_detect__extern L det img m).result =
        (L.apriltag_detector_detect det img m).map Prod.fst
      ∧ ( apriltag_detector_detect__extern L det img m).mem =
        ((L.apriltag_detector_detect det img m).map Prod.snd).getD m := by
  rw [detect_extern_run L det img m im him hread]
  exact ⟨rfl, rfl⟩

/-- An instance of the theorem above: on the 10×1 image the wrapper returns the array handle 9
that the sample detector returns. -/
theorem detect_extern_returns_library_result_witness :
    sampleMemory.images 1 = some rowImage
      ∧ rowImage.width ≤ (rowImage.buf.length : Int)
      ∧ ( apriltag_detector_detect__extern sampleLibrary 4 1 sampleMemory).result = some 9 :=
  ⟨rfl, by decide,
    (detect_extern_returns_library_result sampleLibrary 4 1 sampleMemory rowImage rfl
      (by decide)).1.trans rfl⟩

/-- Claim C9: the texts written by `apriltag_detector_detect__extern` depend only on the
width of the image and on the first `width` bytes of its buffer: two images that agree
on these give the same texts, whatever their height, their stride, the rest of their
buffers, the detector, the library and the rest of memory are. -/
theorem detect_extern_output_depends_on_first_row (L1 L2 : Library) (det1 det2 img1 img2 : Ptr)
    (m1 m2 : Memory) (im1 im2 : image_u8_t)
    (him1 : m1.images img1 = some im1) (him2 : m2.images img2 = some im2)
    (hwidth : im1.width = im2.width)
    (hbytes : im1.buf.take im1.width.toNat = im2.buf.take im2.width.toNat) :
    written ( apriltag_detector_detect__extern L1 det1 img1 m1).trace =
      written ( apriltag_detector_detect__extern L2 det2 img2 m2).trace := by
  have hlen : (im1.buf.take im1.width.toNat).length = (im2.buf.take im2.width.toNat).length :=
    congrArg List.length hbytes
  rw [List.length_take, List.length_take] at hlen
  by_cases h1 : im1.width ≤ (im1.buf.length : Int)
  · have h2 : im2.width ≤ (im2.buf.length : Int) := by omega
    rw [detect_extern_run L1 det1 img1 m1 im1 him1 h1,
      detect_extern_run L2 det2 img2 m2 im2 him2 h2]
    simp only [written_append, written_map_printf, hbytes]
    simp [written]
  · have h2 : (im2.buf.length : Int) < im2.width := by omega
    rw [detect_extern_run_short L1 det1 img1 m1 im1 him1 (by omega),
      detect_extern_run_short L2 det2 img2 m2 im2 him2 h2]
    simp only [written_map_printf, hbytes]

/-- An instance of the theorem above: a 3×2 image with stride 4 and a 3×1 image that share their
first three bytes give the same texts. -/
theorem detect_extern_output_depends_on_first_row_witness :
    sampleMemory.images 2 = some tallImage ∧ sampleMemory.images 3 = some wideImage
      ∧ tallImage.width = wideImage.width
      ∧ tallImage.buf.take tallImage.width.toNat = wideImage.buf.take wideImage.width.toNat
      ∧ written ( apriltag_detector_detect__extern sampleLibrary 4 2 sampleMemory).trace =
        written ( apriltag_detector_detect__extern sampleLibrary 4 3 sampleMemory).trace :=
  ⟨rfl, rfl, rfl, by decide,
    detect_extern_output_depends_on_first_row sampleLibrary sampleLibrary 4 4 2 3 sampleMemory
      sampleMemory tallImage wideImage rfl rfl rfl (by decide)⟩

/-- Claim C10: in one call of `apriltag_detector_detect__extern` the print comes before
detection.  For every library, detector and image the first effect is the write of the
header; when the first `width` bytes can be read, the effects are the header, the `width`
values and the newline, then one call of the library's `apriltag_detector_detect` with
the arguments `det` and `img`, and nothing after it. -/
theorem detect_extern_prints_before_detection (L : Library) (det img : Ptr) (m : Memory)
    (im : image_u8_t) (him : m.images img = some im) :
    ( apriltag_detector_detect__extern L det img m).trace.head? =
        some (Event.printf "What C is seeing:\n")
      ∧ (im.width ≤ (im.buf.length : Int) →
        ( apriltag_detector_detect__extern L det img m).trace =
          ("What C is seeing:\n"
            :: ((im.buf.take im.width.toNat).map fun b => toString b.val ++ " ") ++ ["\n"]).map
            Event.printf ++ [Event.apriltag_detector_detect det img]) := by
  constructor
  · by_cases h : im.width ≤ (im.buf.length : Int)
    · rw [detect_extern_run L det img m im him h]
      rfl
    · rw [detect_extern_run_short L det img m im him (by omega)]
      rfl
  · intro h
    rw [detect_extern_run L det img m im him h]

/-- An instance of the theorem above: the effects of the wrapper on the 3×1 image, in order. -/
theorem detect_extern_prints_before_detection_witness :
    sampleMemory.images 3 = some wideImage
      ∧ wideImage.width ≤ (wideImage.buf.length : Int)
      ∧ ( apriltag_detector_detect__extern sampleLibrary 4 3 sampleMemory).trace =
        [Event.printf "What C is seeing:\n", Event.printf "7 ", Event.printf "8 ",
          Event.printf "9 ", Event.printf "\n", Event.apriltag_detector_detect 4 3] :=
  ⟨rfl, by decide,
    ((detect_extern_prints_before_detection sampleLibrary 4 3 sampleMemory wideImage rfl).2
      (by decide)).trans (by decide)⟩

/-! ## The array wrappers -/

/-- Claim C4: `zarray_get__extern` checks nothing itself.  For every library, array handle,
index (in range or not) and buffer, its only effect is one call of the library's
`zarray_get` with exactly the arguments `(za, idx, p)`, run on the memory received, and
its outcome (value and memory) is the outcome of that library call. -/
theorem zarray_get_extern_forwards_unchecked (L : Library) (za : Ptr) (idx : Int) (p : Ptr)
    (m : Memory) :
    zarray_get__extern L za idx p m =
      ⟨(L.zarray_get za idx p m).map Prod.fst, ((L.zarray_get za idx p m).map Prod.snd).getD m,
        [Event.zarray_get za idx p]⟩ := by
  unfold zarray_get__extern
  exact call_run _ _ m

/-- Claim C8: the boundary performs no cleanup of its own.  `zarray_destroy__extern(za)`
calls the library's `zarray_destroy` once, on the handle `za`, and does nothing else;
none of the three other wrappers calls `zarray_destroy`; in any sequence of calls of a
caller that holds no `destroy(a)`, `zarray_destroy` is never called on `a`; and an
array that is live at `a` (such as one that a detection has just returned) stays live
and unchanged through any such sequence, with the array functions of the specification
and a detector that leaves the live arrays at `a` alone. -/
theorem boundary_no_automatic_cleanup (L : Library) (m : Memory) :
    (∀ za : Ptr, zarray_destroy__extern L za m =
        ⟨(L.zarray_destroy za m).map Prod.fst, ((L.zarray_destroy za m).map Prod.snd).getD m,
          [Event.zarray_destroy za]⟩)
      ∧ (∀ (a za p det img : Ptr) (idx : Int),
        Event.zarray_destroy a ∉ ( zarray_size__extern L za m).trace
          ∧ Event.zarray_destroy a ∉ ( zarray_get__extern L za idx p m).trace
          ∧ Event.zarray_destroy a ∉ ( apriltag_detector_detect__extern L det img m).trace)
      ∧ (∀ (calls : List BoundaryCall) (a : Ptr), BoundaryCall.destroy a ∉ calls →
        Event.zarray_destroy a ∉ (run_calls L calls m).trace)
      ∧ (∀ (detect : Ptr → Ptr → Memory → Option (Ptr × Memory)) (calls : List BoundaryCall)
          (a : Ptr) (arr : zarray_t),
        (∀ det img m0 r m1, m0.arrays a ≠ none → detect det img m0 = some (r, m1) →
          m1.arrays a = m0.arrays a) →
        m.arrays a = some arr →
        BoundaryCall.destroy a ∉ calls →
        (run_calls (Spec.library detect) calls m).mem.arrays a = some arr) := by
  refine ⟨?_, ?_, ?_, ?_⟩
  · intro za
    unfold zarray_destroy__extern
    exact call_run _ _ m
  · intro a za p det img idx
    refine ⟨?_, ?_, detect_extern_trace_no_destroy L det img m a⟩
    · simp [ zarray_size__extern, call_run]
    · simp [ zarray_get__extern, call_run]
  · intro calls a h
    exact run_calls_no_destroy L a calls m h
  · intro detect calls a arr hframe hlive h
    have hsome : m.arrays a ≠ none := by rw [hlive]; exact Option.some_ne_none arr
    exact (run_calls_keeps_array detect a hframe calls m hsome h).trans hlive

/-- An instance of the theorem above.  A caller that asks for the size of the array at 5,
reads its first element and runs a detection does not cause `zarray_destroy` to be
called on 5.  A detection on the 10×1 image returns the array at 9; the caller then asks
for its size, runs a second detection (which returns the array at 10), destroys the
array at 10 and asks for the size of 9 again: the array at 9 is still live. -/
theorem boundary_no_automatic_cleanup_witness :
    BoundaryCall.destroy 5 ∉
        [BoundaryCall.size 5, BoundaryCall.get 5 0 6, BoundaryCall.detect 4 1]
      ∧ Event.zarray_destroy 5 ∉
        (run_calls sampleLibrary
          [BoundaryCall.size 5, BoundaryCall.get 5 0 6, BoundaryCall.detect 4 1]
          sampleMemory).trace
      ∧ ( apriltag_detector_detect__extern freshLibrary 4 1 sampleMemory).result = some 9
      ∧ (∀ det img m0 r m1, m0.arrays 9 ≠ none → detectFresh det img m0 = some (r, m1) →
          m1.arrays 9 = m0.arrays 9)
      ∧ ( apriltag_detector_detect__extern freshLibrary 4 1 sampleMemory).mem.arrays 9
          = some ⟨[]⟩
      ∧ BoundaryCall.destroy 9 ∉
        [BoundaryCall.size 9, BoundaryCall.detect 4 2, BoundaryCall.destroy 10,
          BoundaryCall.size 9]
      ∧ (run_calls freshLibrary
          [BoundaryCall.size 9, BoundaryCall.detect 4 2, BoundaryCall.destroy 10,
            BoundaryCall.size 9]
          ( apriltag_detector_detect__extern freshLibrary 4 1 sampleMemory).mem).mem.arrays 9
          = some ⟨[]⟩ :=
  have hrun := detect_extern_run freshLibrary 4 1 sampleMemory rowImage rfl (by decide)
  have hres : ( apriltag_detector_detect__extern freshLibrary 4 1 sampleMemory).result
      = some 9 := by
    rw [hrun]; rfl
  have hlive : ( apriltag_detector_detect__extern freshLibrary 4 1 sampleMemory).mem.arrays 9
      = some ⟨[]⟩ := by
    rw [hrun]; rfl
  ⟨by decide,
    (boundary_no_automatic_cleanup sampleLibrary sampleMemory).2.2.1 _ 5 (by decide),
    hres,
    detectFresh_frame 9,
    hlive,
    by decide,
    (boundary_no_automatic_cleanup freshLibrary
      ( apriltag_detector_detect__extern freshLibrary 4 1 sampleMemory).mem).2.2.2
      detectFresh _ 9 ⟨[]⟩ (detectFresh_frame 9) hlive (by decide)⟩

/-- Claim C5: for every valid array, `zarray_size__extern` returns the number of elements
of the array, which is the value that the library's `zarray_size` returns for it; for
every library the value returned is the one the library's `zarray_size` returns. -/
theorem zarray_size_extern_returns_count
    (detect : Ptr → Ptr → Memory → Option (Ptr × Memory)) (za : Ptr) (m : Memory)
    (a : zarray_t) (hza : m.arrays za = some a) :
    ( zarray_size__extern (Spec.library detect) za m).result = some (a.elems.length : Int)
      ∧ ∀ L : Library,
        ( zarray_size__extern L za m).result = (L.zarray_size za m).map Prod.fst := by
  constructor
  · simp [ zarray_size__extern, call_run, Spec.library, Spec.zarray_size, hza]
  · intro L
    simp [ zarray_size__extern, call_run]

/-- An instance of the theorem above: the array of two records has size 2. -/
theorem zarray_size_extern_returns_count_witness :
    sampleMemory.arrays 5 = some pairArray
      ∧ ( zarray_size__extern sampleLibrary 5 sampleMemory).result = some 2 :=
  ⟨rfl, (zarray_size_extern_returns_count detectNothing 5 sampleMemory pairArray rfl).1⟩

/-- Claim C7: `zarray_size__extern` has no side effects: a call leaves the memory (so the
array, its element count and its elements) as it was and writes nothing, and a second
call right after the first returns the same value. -/
theorem zarray_size_extern_no_side_effects
    (detect : Ptr → Ptr → Memory → Option (Ptr × Memory)) (za : Ptr) (m : Memory) :
    ( zarray_size__extern (Spec.library detect) za m).mem = m
      ∧ written ( zarray_size__extern (Spec.library detect) za m).trace = []
      ∧ ( zarray_size__extern (Spec.library detect) za
            ( zarray_size__extern (Spec.library detect) za m).mem).result
          = ( zarray_size__extern (Spec.library detect) za m).result := by
  have hmem : ( zarray_size__extern (Spec.library detect) za m).mem = m := by
    simp only [ zarray_size__extern, call_run, Spec.library, Spec.zarray_size]
    cases m.arrays za <;> rfl
  refine ⟨hmem, ?_, ?_⟩
  · simp [ zarray_size__extern, call_run, written]
  · rw [hmem]

/-- Claim C3: for every live array `za` and every index `i` with
`0 ≤ i < zarray_size__extern(za)`, and every caller storage `p` with room for one
element record, `zarray_get__extern(za, i, p)` returns normally (the range check of the
library passes), the storage at `p` then starts with the record at position `i`, and
all arrays, `za` among them, are unchanged. -/
theorem zarray_get_extern_in_range
    (detect : Ptr → Ptr → Memory → Option (Ptr × Memory)) (za p : Ptr) (i n : Int)
    (m : Memory) (a : zarray_t) (out : List Byte)
    (hza : m.arrays za = some a)
    (hsize : ( zarray_size__extern (Spec.library detect) za m).result = some n)
    (hi : 0 ≤ i ∧ i < n)
    (hout : m.storage p = some out)
    (hroom : ∀ r ∈ a.elems, r.length ≤ out.length) :
    ∃ r, a.elems[i.toNat]? = some r
      ∧ ( zarray_get__extern (Spec.library detect) za i p m).result = some ()
      ∧ ( zarray_get__extern (Spec.library detect) za i p m).mem.storage p
          = some (r ++ out.drop r.length)
      ∧ ( zarray_get__extern (Spec.library detect) za i p m).mem.arrays = m.arrays := by
  have hn : n = (a.elems.length : Int) := by
    simp [ zarray_size__extern, call_run, Spec.library, Spec.zarray_size, hza] at hsize
    exact hsize.symm
  have hlt : i.toNat < a.elems.length := by omega
  have hget : a.elems[i.toNat]? = some a.elems[i.toNat] := List.getElem?_eq_getElem hlt
  have hfit : a.elems[i.toNat].length ≤ out.length := hroom _ (List.getElem_mem hlt)
  have hrange : 0 ≤ i ∧ i < (a.elems.length : Int) := by omega
  refine ⟨a.elems[i.toNat], hget, ?_, ?_, ?_⟩ <;>
    simp [ zarray_get__extern, call_run, Spec.library, Spec.zarray_get, hza, hout, hrange, hget,
      hfit]

/-- An instance of the theorem above: reading element 1 of the array of two records into the four
bytes of storage at address 6 puts the record 20, 21 at the start of the storage. -/
theorem zarray_get_extern_in_range_witness :
    sampleMemory.arrays 5 = some pairArray
      ∧ ( zarray_size__extern sampleLibrary 5 sampleMemory).result = some 2
      ∧ ((0 : Int) ≤ 1 ∧ (1 : Int) < 2)
      ∧ sampleMemory.storage 6 = some [0, 0, 0, 0]
      ∧ ∃ r, pairArray.elems[(1 : Int).toNat]? = some r
        ∧ ( zarray_get__extern sampleLibrary 5 1 6 sampleMemory).result = some ()
        ∧ ( zarray_get__extern sampleLibrary 5 1 6 sampleMemory).mem.storage 6
            = some (r ++ ([0, 0, 0, 0] : List Byte).drop r.length)
        ∧ ( zarray_get__extern sampleLibrary 5 1 6 sampleMemory).mem.arrays
            = sampleMemory.arrays :=
  ⟨rfl, rfl, by decide, rfl,
    zarray_get_extern_in_range detectNothing 5 6 1 2 sampleMemory pairArray [0, 0, 0, 0] rfl rfl
      (by decide) rfl (by decide)⟩

/-- Claim C6: if the library's detection yields an empty array, then
`apriltag_detector_detect__extern` returns normally with that array, `zarray_size__extern`
returns 0 for it, and `zarray_destroy__extern` on it returns normally and releases it. -/
theorem detect_extern_empty_result
    (detect : Ptr → Ptr → Memory → Option (Ptr × Memory)) (det img a : Ptr) (m m1 : Memory)
    (im : image_u8_t) (arr : zarray_t)
    (him : m.images img = some im) (hread : im.width ≤ (im.buf.length : Int))
    (hdet : detect det img m = some (a, m1))
    (hlive : m1.arrays a = some arr) (hempty : arr.elems = []) :
    ( apriltag_detector_detect__extern (Spec.library detect) det img m).result = some a
      ∧ ( zarray_size__extern (Spec.library detect) a
          ( apriltag_detector_detect__extern (Spec.library detect) det img m).mem).result
          = some 0
      ∧ ( zarray_destroy__extern (Spec.library detect) a
          ( apriltag_detector_detect__extern (Spec.library detect) det img m).mem).result
          = some ()
      ∧ ( zarray_destroy__extern (Spec.library detect) a
          ( apriltag_detector_detect__extern (Spec.library detect) det img m).mem).mem.arrays a
          = none := by
  have hdet2 : (Spec.library detect).apriltag_detector_detect det img m = some (a, m1) := hdet
  rw [detect_extern_run (Spec.library detect) det img m im him hread, hdet2]
  simp [ zarray_size__extern, zarray_destroy__extern, call_run, Spec.library, Spec.zarray_size,
    Spec.zarray_destroy, hlive, hempty]

/-- An instance of the theorem above: with a detector that finds nothing in the 10×1 image, the
wrapper returns the empty array at address 9, whose size is 0 and which can be
destroyed. -/
theorem detect_extern_empty_result_witness :
    sampleMemory.images 1 = some rowImage
      ∧ rowImage.width ≤ (rowImage.buf.length : Int)
      ∧ ( apriltag_detector_detect__extern sampleLibrary 4 1 sampleMemory).result = some 9
      ∧ ( zarray_size__extern sampleLibrary 9
          ( apriltag_detector_detect__extern sampleLibrary 4 1 sampleMemory).mem).result
          = some 0
      ∧ ( zarray_destroy__extern sampleLibrary 9
          ( apriltag_detector_detect__extern sampleLibrary 4 1 sampleMemory).mem).result
          = some ()
      ∧ ( zarray_destroy__extern sampleLibrary 9
          ( apriltag_detector_detect__extern sampleLibrary 4 1 sampleMemory).mem).mem.arrays 9
          = none :=
  ⟨rfl, by decide,
    detect_extern_empty_result detectNothing 4 1 9 sampleMemory _ rowImage ⟨[]⟩ rfl (by decide)
      rfl rfl rfl⟩

end Apriltag
